import Mathlib

/-!
Shallow embedding of the Kael-Music lyrics engine core
(spring integrator, active-index computation, scroll/camera controller,
text layout, karaoke word progress) and proofs of the specification
claims about it.

Numbers are modelled as rationals; JavaScript's `||`/`??` fallbacks and
optional fields are modelled with `Option`.
-/

/-- Spring configuration, from `src/services/lyricsService.ts` lines 480-485
(`interface SpringConfig`).  `precision` is optional in the source
(`precision?: number`). -/
structure SpringConfig where
  mass : ℚ
  stiffness : ℚ
  damping : ℚ
  precision : Option ℚ
deriving DecidableEq, Repr

/-- `DEFAULT_SPRING` preset (`lyricsService.ts` lines 487-492). -/
def DEFAULT_SPRING : SpringConfig :=
  { mass := 1, stiffness := 120, damping := 20, precision := some (1/100) }

/-- `CAMERA_SPRING` preset (`lyricsService.ts` lines 545-550). -/
def CAMERA_SPRING : SpringConfig :=
  { mass := 1, stiffness := 100, damping := 25, precision := some (1/10) }

/-- State of one spring channel: `current`, `velocity`, `target`
(per-channel entries of `SpringSystem`, `lyricsService.ts` lines 553-555,
and the hook-local `SpringState` of `useLyricsPhysics`). -/
structure SpringState where
  current : ℚ
  velocity : ℚ
  target : ℚ
deriving DecidableEq, Repr

/-- Effective precision in `SpringSystem.update`:
`const precision = p.precision ?? 0.01` (`lyricsService.ts` line 607).
`??` falls back only when the field is absent. -/
def springSystemPrecision (p : SpringConfig) : ℚ :=
  p.precision.getD (1/100)

/-- Effective precision in the hook's `updateSpring`:
`config.precision || 0.01` (`useLyricsPhysics`, line 139).  JavaScript `||`
also replaces the falsy value `0`. -/
def hookPrecision (p : SpringConfig) : ℚ :=
  match p.precision with
  | none => 1/100
  | some q => if q = 0 then 1/100 else q

/-- One step of `SpringSystem.update` on a single channel
(`src/services/lyricsService.ts` lines 588-626): semi-implicit Euler
integration followed by the at-rest snap, which tests the *post-step*
velocity and the *post-step* displacement against `precision`. -/
def springSystemStep (p : SpringConfig) (s : SpringState) (dt : ℚ) : SpringState :=
  let displacement := s.current - s.target
  let springForce := -p.stiffness * displacement
  let dampingForce := -p.damping * s.velocity
  let acceleration := (springForce + dampingForce) / p.mass
  let newVelocity := s.velocity + acceleration * dt
  let newPosition := s.current + newVelocity * dt
  let precision := springSystemPrecision p
  if |newVelocity| < precision ∧ |newPosition - s.target| < precision then
    { current := s.target, velocity := 0, target := s.target }
  else
    { current := newPosition, velocity := newVelocity, target := s.target }

/-- One step of the hook-local `updateSpring` helper
(`src/unnamed/part_009`, `useLyricsPhysics`, lines 130-143): the same
integration, but the at-rest snap tests the *pre-step* displacement
(the local `displacement` computed before the state was mutated). -/
def updateSpring (s : SpringState) (p : SpringConfig) (dt : ℚ) : SpringState :=
  let displacement := s.current - s.target
  let springForce := -p.stiffness * displacement
  let dampingForce := -p.damping * s.velocity
  let acceleration := (springForce + dampingForce) / p.mass
  let newVelocity := s.velocity + acceleration * dt
  let newPosition := s.current + newVelocity * dt
  if |newVelocity| < hookPrecision p ∧ |displacement| < hookPrecision p then
    { current := s.target, velocity := 0, target := s.target }
  else
    { current := newPosition, velocity := newVelocity, target := s.target }

/-- Post-step velocity of one integration step (shared by both steppers). -/
def stepVelocity (p : SpringConfig) (s : SpringState) (dt : ℚ) : ℚ :=
  s.velocity +
    ((-p.stiffness * (s.current - s.target) - p.damping * s.velocity) / p.mass) * dt

/-- Post-step position of one integration step (shared by both steppers):
the freshly updated velocity is used. -/
def stepPosition (p : SpringConfig) (s : SpringState) (dt : ℚ) : ℚ :=
  s.current + stepVelocity p s dt * dt

/-- At-rest condition of `SpringSystem.update` (`isNearRest`,
`lyricsService.ts` lines 611-613): post-step velocity and post-step
displacement both below precision. -/
def springSystemAtRest (p : SpringConfig) (s : SpringState) (dt : ℚ) : Prop :=
  |stepVelocity p s dt| < springSystemPrecision p ∧
    |stepPosition p s dt - s.target| < springSystemPrecision p

instance (p : SpringConfig) (s : SpringState) (dt : ℚ) :
    Decidable (springSystemAtRest p s dt) := by
  unfold springSystemAtRest; infer_instance

/-- At-rest condition of the hook's `updateSpring` (line 139): post-step
velocity but *pre-step* displacement. -/
def hookAtRest (p : SpringConfig) (s : SpringState) (dt : ℚ) : Prop :=
  |stepVelocity p s dt| < hookPrecision p ∧
    |s.current - s.target| < hookPrecision p

instance (p : SpringConfig) (s : SpringState) (dt : ℚ) :
    Decidable (hookAtRest p s dt) := by
  unfold hookAtRest; infer_instance

theorem springSystemStep_eq (p : SpringConfig) (s : SpringState) (dt : ℚ) :
    springSystemStep p s dt =
      if springSystemAtRest p s dt then
        { current := s.target, velocity := 0, target := s.target }
      else
        { current := stepPosition p s dt, velocity := stepVelocity p s dt,
          target := s.target } := by
  simp only [springSystemStep, springSystemAtRest, stepPosition, stepVelocity,
    sub_eq_add_neg, neg_mul]

theorem updateSpring_eq (s : SpringState) (p : SpringConfig) (dt : ℚ) :
    updateSpring s p dt =
      if hookAtRest p s dt then
        { current := s.target, velocity := 0, target := s.target }
      else
        { current := stepPosition p s dt, velocity := stepVelocity p s dt,
          target := s.target } := by
  simp only [updateSpring, hookAtRest, stepPosition, stepVelocity,
    sub_eq_add_neg, neg_mul]

/-- C2: one `SpringSystem.update` step computes
`velocity' = velocity + ((-stiffness·(current − target) − damping·velocity)/mass)·dt`
and then `current' = current + velocity'·dt` (the freshly updated velocity
drives the position update), except when the at-rest condition pins the
channel to its target. -/
theorem springSystemStep_semiImplicitEuler (p : SpringConfig) (s : SpringState)
    (dt : ℚ) (h : ¬ springSystemAtRest p s dt) :
    (springSystemStep p s dt).velocity =
        s.velocity +
          ((-p.stiffness * (s.current - s.target) - p.damping * s.velocity)
            / p.mass) * dt ∧
      (springSystemStep p s dt).current =
        s.current + (springSystemStep p s dt).velocity * dt := by
  rw [springSystemStep_eq, if_neg h]
  exact ⟨rfl, rfl⟩

/-- Witness for `springSystemStep_semiImplicitEuler` at a concrete input. -/
theorem springSystemStep_semiImplicitEuler_witness :
    ¬ springSystemAtRest DEFAULT_SPRING ⟨5, 0, 0⟩ (1/60) ∧
      ((springSystemStep DEFAULT_SPRING ⟨5, 0, 0⟩ (1/60)).velocity =
          (0 : ℚ) +
            ((-(120 : ℚ) * ((5 : ℚ) - 0) - 20 * 0) / 1) * (1/60) ∧
        (springSystemStep DEFAULT_SPRING ⟨5, 0, 0⟩ (1/60)).current =
          (5 : ℚ) + (springSystemStep DEFAULT_SPRING ⟨5, 0, 0⟩ (1/60)).velocity * (1/60)) :=
  ⟨by with_unfolding_all decide,
    springSystemStep_semiImplicitEuler DEFAULT_SPRING ⟨5, 0, 0⟩ (1/60)
      (by with_unfolding_all decide)⟩

/-- C3: (1) whenever the post-step values satisfy `|velocity'| < precision`
and `|current' − target| < precision`, `SpringSystem.update` sets `current`
exactly to `target` and `velocity` exactly to `0`; (2) from an at-rest
state (`current = target`, `velocity = 0`) with positive precision and a
valid mass, a further step leaves the state unchanged; (3) hence every
iterate of further updates leaves the state unchanged. -/
theorem springSystemStep_rest (p : SpringConfig) (s : SpringState) (dt : ℚ) :
    (springSystemAtRest p s dt →
        springSystemStep p s dt = ⟨s.target, 0, s.target⟩) ∧
      (p.mass ≠ 0 → s.current = s.target → s.velocity = 0 →
        0 < springSystemPrecision p → springSystemStep p s dt = s) ∧
      (∀ n : ℕ, p.mass ≠ 0 → s.current = s.target → s.velocity = 0 →
        0 < springSystemPrecision p →
        (fun st => springSystemStep p st dt)^[n] s = s) := by
  have hsnap : springSystemAtRest p s dt →
      springSystemStep p s dt = ⟨s.target, 0, s.target⟩ := by
    intro h
    rw [springSystemStep_eq, if_pos h]
  have hrest : p.mass ≠ 0 → s.current = s.target → s.velocity = 0 →
      0 < springSystemPrecision p → springSystemStep p s dt = s := by
    intro _ hc hv hp
    have hv' : stepVelocity p s dt = 0 := by
      simp [stepVelocity, hc, hv]
    have hx' : stepPosition p s dt = s.target := by
      simp [stepPosition, hv', hc]
    have hat : springSystemAtRest p s dt := by
      constructor
      · simpa [hv'] using hp
      · simpa [hx'] using hp
    rw [springSystemStep_eq, if_pos hat]
    cases s
    simp_all
  refine ⟨hsnap, hrest, ?_⟩
  intro n hm hc hv hp
  induction n with
  | zero => rfl
  | succ k ih =>
    rw [Function.iterate_succ_apply', ih, hrest hm hc hv hp]

/-- Witness for `springSystemStep_rest` at a concrete input: a channel at
2 with velocity 1/1000, target 2, precision 1/100 snaps exactly; an
at-rest channel is a fixed point, also after 3 iterates. -/
theorem springSystemStep_rest_witness :
    (springSystemAtRest DEFAULT_SPRING ⟨2, 1/1000, 2⟩ 0 ∧
        springSystemStep DEFAULT_SPRING ⟨2, 1/1000, 2⟩ 0 = ⟨2, 0, 2⟩) ∧
      springSystemStep DEFAULT_SPRING ⟨7, 0, 7⟩ (1/60) = ⟨7, 0, 7⟩ ∧
      (fun st => springSystemStep DEFAULT_SPRING st (1/60))^[3] ⟨7, 0, 7⟩ = ⟨7, 0, 7⟩ := by
  refine ⟨⟨by with_unfolding_all decide, ?_⟩, ?_, ?_⟩
  · exact (springSystemStep_rest DEFAULT_SPRING ⟨2, 1/1000, 2⟩ 0).1
      (by with_unfolding_all decide)
  · exact (springSystemStep_rest DEFAULT_SPRING ⟨7, 0, 7⟩ (1/60)).2.1
      (by with_unfolding_all decide) rfl rfl (by with_unfolding_all decide)
  · exact (springSystemStep_rest DEFAULT_SPRING ⟨7, 0, 7⟩ (1/60)).2.2 3
      (by with_unfolding_all decide) rfl rfl (by with_unfolding_all decide)

/-- C10 counterexample: the two steppers disagree.  With mass 1,
stiffness 1/10000, damping 0, precision 1/10, state
(current 1, velocity 0, target 0) and dt = 100, the post-step pair is
(0, −1/100); `SpringSystem.update` snaps (post-step displacement 0 and
post-step velocity 1/100 are both below precision) while the hook's
`updateSpring` does not (its pre-step displacement 1 is not), leaving
velocity −1/100 instead of 0. -/
theorem springSteppers_differ :
    springSystemStep ⟨1, 1/10000, 0, some (1/10)⟩ ⟨1, 0, 0⟩ 100 ≠
      updateSpring ⟨1, 0, 0⟩ ⟨1, 1/10000, 0, some (1/10)⟩ 100 := by
  with_unfolding_all decide

/-- C10 amended: the two steppers compute the same integration step
(`velocity'`, `current'`); they differ only in the at-rest test
(`SpringSystem.update` compares the post-step displacement with
`precision ?? 0.01`, the hook's `updateSpring` compares the pre-step
displacement with `precision || 0.01`); whenever those two at-rest
conditions agree, the successor states are identical. -/
theorem springSteppers_agree (p : SpringConfig) (s : SpringState) (dt : ℚ)
    (h : springSystemAtRest p s dt ↔ hookAtRest p s dt) :
    springSystemStep p s dt = updateSpring s p dt := by
  rw [springSystemStep_eq, updateSpring_eq]
  by_cases hr : springSystemAtRest p s dt
  · rw [if_pos hr, if_pos (h.mp hr)]
  · rw [if_neg hr, if_neg (fun hh => hr (h.mpr hh))]

/-- Witness for `springSteppers_agree` at a concrete input (a state far
from rest, where both at-rest tests are false). -/
theorem springSteppers_agree_witness :
    springSystemStep DEFAULT_SPRING ⟨5, 0, 0⟩ (1/60) =
      updateSpring ⟨5, 0, 0⟩ DEFAULT_SPRING (1/60) :=
  springSteppers_agree DEFAULT_SPRING ⟨5, 0, 0⟩ (1/60)
    (by with_unfolding_all decide)

/-- The scanning loop of the active-index effect in `useLyricsPhysics`
(`src/unnamed/part_009` lines 112-123): walk the lines in order; at the
first `i` with `currentTime ≥ lyrics[i].time` and
`currentTime < (lyrics[i+1]?.time ?? Infinity)` stop with `i`; otherwise
`-1`.  `i` is the running index, the list the remaining `time` values. -/
def activeIdxLoop : List ℚ → ℚ → ℕ → ℤ
  | [], _, _ => -1
  | [a], t, i => if a ≤ t then (i : ℤ) else -1
  | a :: b :: rest, t, i =>
      if a ≤ t ∧ t < b then (i : ℤ)
      else activeIdxLoop (b :: rest) t (i + 1)

/-- The `idx` computed by the effect for one `currentTime`. -/
def computeActiveIdx (times : List ℚ) (t : ℚ) : ℤ :=
  activeIdxLoop times t 0

/-- One run of the active-index effect on the exposed state
(`part_009` lines 112-127): an empty lyric list returns early, and the
state is only overwritten when `idx !== -1` (and differs from the
previous value). -/
def stepActiveIndex (times : List ℚ) (t : ℚ) (prev : ℤ) : ℤ :=
  if times = [] then prev
  else
    let idx := computeActiveIdx times t
    if idx ≠ -1 ∧ idx ≠ prev then idx else prev

/-- The exposed `activeIndex` after the effect has run for each
`currentTime` of a trace, starting from the initial state `-1`
(`useState(-1)`, `part_009` line 72). -/
def exposedActiveIndex (times : List ℚ) (trace : List ℚ) : ℤ :=
  trace.foldl (fun prev t => stepActiveIndex times t prev) (-1)

/-- Index `i` satisfies `lyrics[i].time ≤ t < lyrics[i+1].time`, the next
time treated as `+∞` for the last line. -/
def isActiveAt (times : List ℚ) (t : ℚ) (i : ℕ) : Prop :=
  ∃ h : i < times.length,
    times.get ⟨i, h⟩ ≤ t ∧ ∀ h2 : i + 1 < times.length, t < times.get ⟨i + 1, h2⟩

theorem activeIdxLoop_spec (t : ℚ) :
    ∀ (l : List ℚ) (i : ℕ),
      activeIdxLoop l t i = -1 ∨
        ∃ k, ∃ hk : k < l.length, activeIdxLoop l t i = (i : ℤ) + k ∧
          l.get ⟨k, hk⟩ ≤ t ∧ ∀ h2 : k + 1 < l.length, t < l.get ⟨k + 1, h2⟩
  | [], _ => Or.inl rfl
  | [a], i => by
      by_cases h : a ≤ t
      · refine Or.inr ⟨0, by simp, by simp [activeIdxLoop, h], by simpa using h, ?_⟩
        intro h2
        simp at h2
      · exact Or.inl (by simp [activeIdxLoop, h])
  | a :: b :: rest, i => by
      by_cases h : a ≤ t ∧ t < b
      · refine Or.inr ⟨0, by simp, by simp [activeIdxLoop, h], by simpa using h.1, ?_⟩
        intro h2
        simpa using h.2
      · rcases activeIdxLoop_spec t (b :: rest) (i + 1) with h1 | ⟨k, hk, heq, hle, hnext⟩
        · exact Or.inl (by simp [activeIdxLoop, h, h1])
        · refine Or.inr ⟨k + 1, by simpa using Nat.succ_lt_succ hk, ?_, by simpa using hle, ?_⟩
          · have : activeIdxLoop (a :: b :: rest) t i = activeIdxLoop (b :: rest) t (i + 1) := by
              simp [activeIdxLoop, h]
            rw [this, heq]
            push_cast
            ring
          · intro h2
            have := hnext (by simpa using Nat.lt_of_succ_lt_succ h2)
            simpa using this

theorem activeIdxLoop_eq_neg_of_lt (t : ℚ) :
    ∀ (l : List ℚ) (i : ℕ), (∀ x ∈ l, t < x) → activeIdxLoop l t i = -1
  | [], _, _ => rfl
  | [a], i, h => by
      have : ¬ a ≤ t := not_le.mpr (h a (by simp))
      simp [activeIdxLoop, this]
  | a :: b :: rest, i, h => by
      have ha : ¬ (a ≤ t ∧ t < b) := fun hh => absurd hh.1 (not_le.mpr (h a (by simp)))
      have hrec := activeIdxLoop_eq_neg_of_lt t (b :: rest) (i + 1)
        (fun x hx => h x (by simp [hx]))
      simp [activeIdxLoop, ha, hrec]

theorem activeIdxLoop_head_le (t : ℚ) :
    ∀ (rest : List ℚ) (a : ℚ) (i : ℕ), a ≤ t →
      ∃ k : ℕ, activeIdxLoop (a :: rest) t i = (i : ℤ) + k
  | [], a, i, h => ⟨0, by simp [activeIdxLoop, h]⟩
  | b :: rest, a, i, h => by
      by_cases hb : t < b
      · exact ⟨0, by simp [activeIdxLoop, h, hb]⟩
      · obtain ⟨k, hk⟩ := activeIdxLoop_head_le t rest b (i + 1) (not_lt.mp hb)
        refine ⟨k + 1, ?_⟩
        have hcond : ¬ (a ≤ t ∧ t < b) := fun hh => hb hh.2
        rw [show activeIdxLoop (a :: b :: rest) t i = activeIdxLoop (b :: rest) t (i + 1) by
          simp [activeIdxLoop, hcond], hk]
        push_cast
        ring

theorem isActiveAt_not_lt (times : List ℚ) (t : ℚ) (i j : ℕ)
    (hs : times.Sorted (· ≤ ·)) (hi : isActiveAt times t i)
    (hj : isActiveAt times t j) : ¬ i < j := by
  intro hij
  obtain ⟨hilt, _, hinext⟩ := hi
  obtain ⟨hjlt, hjle, _⟩ := hj
  have h1 : i + 1 < times.length := lt_of_le_of_lt (Nat.succ_le_of_lt hij) hjlt
  have h2 : t < times.get ⟨i + 1, h1⟩ := hinext h1
  have h3 : times.get ⟨i + 1, h1⟩ ≤ times.get ⟨j, hjlt⟩ :=
    List.Sorted.get_mono hs (by exact Nat.succ_le_of_lt hij)
  exact absurd (lt_of_lt_of_le (lt_of_lt_of_le h2 h3) hjle) (lt_irrefl t)

/-- C1 (amended): for a nonempty lyric track with non-decreasing times,
(1) at most one index `i` satisfies `lyrics[i].time ≤ t < lyrics[i+1].time`
(next time `+∞` for the last line); (2) the `idx` computed by the effect
equals `-1` iff `t < lyrics[0].time`; (3) a computed `idx ≠ -1` is such a
satisfying index; (4) the *exposed* `activeIndex` after an effect run is
`-1` only if `t < lyrics[0].time` — the converse fails because the state
is not overwritten when `idx = -1` (see the counterexample). -/
theorem activeIndex_characterization (times : List ℚ) (t : ℚ) (prev : ℤ)
    (hs : times.Sorted (· ≤ ·)) (hne : times ≠ []) :
    (∀ i j : ℕ, isActiveAt times t i → isActiveAt times t j → i = j) ∧
      (computeActiveIdx times t = -1 ↔ t < times.head hne) ∧
      (∀ k : ℕ, computeActiveIdx times t = (k : ℤ) → isActiveAt times t k) ∧
      (stepActiveIndex times t prev = -1 → t < times.head hne) := by
  obtain ⟨a, rest, rfl⟩ := List.exists_cons_of_ne_nil hne
  have huniq : ∀ i j : ℕ, isActiveAt (a :: rest) t i → isActiveAt (a :: rest) t j → i = j := by
    intro i j hi hj
    rcases Nat.lt_trichotomy i j with h | h | h
    · exact absurd h (isActiveAt_not_lt _ t i j hs hi hj)
    · exact h
    · exact absurd h (isActiveAt_not_lt _ t j i hs hj hi)
  have hiff : computeActiveIdx (a :: rest) t = -1 ↔ t < a := by
    constructor
    · intro heq
      by_contra hlt
      obtain ⟨k, hk⟩ := activeIdxLoop_head_le t rest a 0 (not_lt.mp hlt)
      rw [computeActiveIdx, hk] at heq
      omega
    · intro hlt
      apply activeIdxLoop_eq_neg_of_lt
      intro x hx
      rcases List.mem_cons.mp hx with rfl | hx
      · exact hlt
      · exact lt_of_lt_of_le hlt ((List.sorted_cons.mp hs).1 x hx)
  refine ⟨huniq, hiff, ?_, ?_⟩
  · intro k hk
    rcases activeIdxLoop_spec t (a :: rest) 0 with h1 | ⟨k', hk', heq, hle, hnext⟩
    · rw [computeActiveIdx] at hk
      rw [h1] at hk
      omega
    · rw [computeActiveIdx] at hk
      rw [heq] at hk
      have : k' = k := by omega
      subst this
      exact ⟨hk', hle, hnext⟩
  · intro hstep
    have hidx : computeActiveIdx (a :: rest) t = -1 := by
      by_contra hne2
      rw [stepActiveIndex, if_neg (by simp)] at hstep
      by_cases hc : computeActiveIdx (a :: rest) t ≠ -1 ∧
          computeActiveIdx (a :: rest) t ≠ prev
      · rw [if_pos hc] at hstep
        exact hne2 hstep
      · rw [if_neg hc] at hstep
        push_neg at hc
        exact hne2 ((hc (by assumption)) ▸ hstep)
    exact hiff.mp hidx

/-- Witness for `activeIndex_characterization` at the track
`[0, 5, 10]` and `currentTime = 6`: the computed index is 1, it
satisfies the window property, and it is not the sentinel `-1`. -/
theorem activeIndex_characterization_witness :
    isActiveAt [0, 5, 10] 6 1 ∧ computeActiveIdx [0, 5, 10] 6 ≠ -1 := by
  have h := activeIndex_characterization [0, 5, 10] 6 (-1)
    (by with_unfolding_all decide) (by simp)
  refine ⟨h.2.2.1 1 (by with_unfolding_all decide), fun heq => ?_⟩
  have := h.2.1.mp heq
  simp only [List.head_cons] at this
  exact absurd this (by with_unfolding_all decide)

/-- C1 counterexample: with a single line at time 5 and the trace
`currentTime = 10` then `currentTime = 0`, the exposed `activeIndex`
remains `0` (the effect only overwrites the state when the computed
`idx ≠ -1`), even though the latest `currentTime = 0` is below
`lyrics[0].time = 5` — so "`activeIndex == -1` iff
`currentTime < lyrics[0].time`" fails for the exposed state. -/
theorem exposedActiveIndex_counterexample :
    ¬ (exposedActiveIndex [5] [10, 0] = -1 ↔ (0 : ℚ) < 5) := by
  with_unfolding_all decide

/-- `WordLayout` (interface in `src/components/lyrics/LyricLine.ts`
lines 974-986): a measured word of a line.  The transient
`renderProgress`/`renderSnapshot` fields are threaded explicitly through
the functions that use them. -/
structure WordLayout where
  text : String
  x : ℚ
  y : ℚ
  width : ℚ
  startTime : ℚ
  endTime : ℚ
  isVerbatim : Bool
  charWidths : List ℚ
  charOffsets : List ℚ
deriving DecidableEq, Repr

/-- `WordRenderPhase` (`LyricLine.ts` line 988). -/
inductive WordRenderPhase
  | before
  | activeStandard
  | activeGlow
  | after
deriving DecidableEq, Repr

/-- `WordRenderSnapshot` (`LyricLine.ts` lines 990-994). -/
structure WordRenderSnapshot where
  phase : WordRenderPhase
  rawProgress : ℚ
  lastGlowSample : Option ℚ
deriving DecidableEq, Repr

/-- `shouldUseGlow` (`LyricLine.ts` lines 1087-1089):
`duration > 1 && word.text.length <= 7`. -/
def shouldUseGlow (word : WordLayout) (duration : ℚ) : Bool :=
  1 < duration ∧ word.text.length ≤ 7

/-- `computeWordSnapshot` (`LyricLine.ts` lines 1091-1111). -/
def computeWordSnapshot (word : WordLayout) (currentTime : ℚ) : WordRenderSnapshot :=
  let duration := word.endTime - word.startTime
  if currentTime ≤ word.startTime then
    ⟨.before, 0, none⟩
  else if duration ≤ 0 ∨ word.endTime ≤ currentTime then
    ⟨.after, 1, none⟩
  else
    let elapsed := currentTime - word.startTime
    let rawProgress := max 0 (min 1 (elapsed / duration))
    ⟨if shouldUseGlow word duration then .activeGlow else .activeStandard,
      rawProgress, none⟩

/-- `easeProgress` (`LyricLine.ts` lines 1922-1933): exponential smoothing
with adaptive rate toward `target`.  Input is the word's stored
`renderProgress` (absent on the first call); output is the new stored
value and the clamped value returned to the renderer. -/
def easeProgress (renderProgress : Option ℚ) (target : ℚ) : ℚ × ℚ :=
  match renderProgress with
  | none => (target, max 0 (min 1 target))
  | some rp =>
      let delta := target - rp
      let adaptiveRate := 3/20 + |delta| * (1/5)
      let rp2 := rp + delta * min adaptiveRate (2/5)
      (rp2, max 0 (min 1 rp2))

/-- C8: for every word with positive duration, the snapshot's progress
lies in `[0,1]`; it is exactly `0` at or before `startTime` and exactly
`1` at or after `endTime`; and the smoothed progress returned by
`easeProgress` is clamped to `[0,1]` for any stored value. -/
theorem wordProgress_bounds (word : WordLayout) (t : ℚ)
    (hd : 0 < word.endTime - word.startTime) :
    (0 ≤ (computeWordSnapshot word t).rawProgress ∧
        (computeWordSnapshot word t).rawProgress ≤ 1) ∧
      (t ≤ word.startTime → (computeWordSnapshot word t).rawProgress = 0) ∧
      (word.endTime ≤ t → (computeWordSnapshot word t).rawProgress = 1) ∧
      (∀ rp : Option ℚ, 0 ≤ (easeProgress rp t).2 ∧ (easeProgress rp t).2 ≤ 1) := by
  have hclamp : ∀ x : ℚ, 0 ≤ max 0 (min 1 x) ∧ max 0 (min 1 x) ≤ 1 := by
    intro x
    constructor
    · exact le_max_left 0 _
    · exact max_le zero_le_one (min_le_left 1 x)
  refine ⟨?_, ?_, ?_, ?_⟩
  · simp only [computeWordSnapshot]
    split_ifs
    · simp
    · simp
    · exact hclamp _
    · exact hclamp _
  · intro h
    simp only [computeWordSnapshot]
    rw [if_pos h]
  · intro h
    have hts : ¬ t ≤ word.startTime := by
      intro hle
      have : word.endTime ≤ word.startTime := le_trans h hle
      linarith
    simp only [computeWordSnapshot]
    rw [if_neg hts, if_pos (Or.inr h)]
  · intro rp
    cases rp with
    | none => exact hclamp _
    | some v => exact hclamp _

/-- Witness for `wordProgress_bounds`: word timed `[1, 3]`, queried at
`t = 0`, `t = 2` and `t = 5`. -/
theorem wordProgress_bounds_witness :
    ((computeWordSnapshot ⟨"la", 0, 0, 10, 1, 3, true, [], []⟩ 2).rawProgress ≤ 1) ∧
      ((computeWordSnapshot ⟨"la", 0, 0, 10, 1, 3, true, [], []⟩ 0).rawProgress = 0) ∧
      ((computeWordSnapshot ⟨"la", 0, 0, 10, 1, 3, true, [], []⟩ 5).rawProgress = 1) ∧
      (0 ≤ (easeProgress (some (1/2)) 2).2 ∧ (easeProgress (some (1/2)) 2).2 ≤ 1) :=
  ⟨(wordProgress_bounds ⟨"la", 0, 0, 10, 1, 3, true, [], []⟩ 2
      (by with_unfolding_all decide)).1.2,
    (wordProgress_bounds ⟨"la", 0, 0, 10, 1, 3, true, [], []⟩ 0
      (by with_unfolding_all decide)).2.1 (by with_unfolding_all decide),
    (wordProgress_bounds ⟨"la", 0, 0, 10, 1, 3, true, [], []⟩ 5
      (by with_unfolding_all decide)).2.2.1 (by with_unfolding_all decide),
    (wordProgress_bounds ⟨"la", 0, 0, 10, 1, 3, true, [], []⟩ 2
      (by with_unfolding_all decide)).2.2.2 (some (1/2))⟩

/-- Per-line position spring configuration over the reals (the
distance-dependent profile of `getLinePosSpring` involves `Math.sqrt`,
so this mirror of `SpringConfig` lives in `ℝ`). -/
structure LinePosSpringConfig where
  mass : ℝ
  stiffness : ℝ
  damping : ℝ
  precision : ℝ

/-- `getLinePosSpring` (`src/unnamed/part_009` lines 27-53): past/active
lines get a stiff snap profile; lines more than 8 positions ahead get a
fixed loose profile; lines 1..8 ahead get exponentially decaying
stiffness `max(40, 300·0.5^dist)` with `damping = sqrt(stiffness)·2`.
(`Real.sqrt` makes this definition non-executable; the claims about it
are settled symbolically.) -/
noncomputable def getLinePosSpring (relativeIndex : ℤ) : LinePosSpringConfig :=
  if relativeIndex ≤ 0 then
    { mass := 1, stiffness := 1200, damping := 60, precision := 1/10 }
  else
    let dist := relativeIndex
    if 8 < dist then
      { mass := 1, stiffness := 40, damping := 20, precision := 1/10 }
    else
      let base : ℝ := 300
      let stiffness : ℝ := max 40 (base * (1/2 : ℝ) ^ dist.toNat)
      let damping : ℝ := Real.sqrt stiffness * 2
      { mass := 1, stiffness := stiffness, damping := damping, precision := 1/10 }

/-- C6: for `1 ≤ d ≤ 8` positions ahead of the active line the position
spring uses `stiffness = max(40, 300·0.5^d)`, `damping = 2·√stiffness`
and mass 1; for `d > 8` the fixed loose profile (stiffness 40,
damping 20); for `d ≤ 0` the single high-stiffness high-damping
profile (stiffness 1200, damping 60). -/
theorem getLinePosSpring_profile (d : ℤ) :
    (1 ≤ d → d ≤ 8 →
        (getLinePosSpring d).mass = 1 ∧
          (getLinePosSpring d).stiffness = max 40 (300 * (1/2 : ℝ) ^ d.toNat) ∧
          (getLinePosSpring d).damping =
            2 * Real.sqrt (max 40 (300 * (1/2 : ℝ) ^ d.toNat))) ∧
      (8 < d →
        (getLinePosSpring d).mass = 1 ∧ (getLinePosSpring d).stiffness = 40 ∧
          (getLinePosSpring d).damping = 20) ∧
      (d ≤ 0 →
        (getLinePosSpring d).mass = 1 ∧ (getLinePosSpring d).stiffness = 1200 ∧
          (getLinePosSpring d).damping = 60) := by
  refine ⟨?_, ?_, ?_⟩
  · intro h1 h8
    have hpos : ¬ d ≤ 0 := by omega
    have hle : ¬ 8 < d := by omega
    simp only [getLinePosSpring, if_neg hpos, if_neg hle]
    exact ⟨trivial, trivial, mul_comm (Real.sqrt _) 2⟩
  · intro h8
    have hpos : ¬ d ≤ 0 := by omega
    simp only [getLinePosSpring, if_neg hpos, if_pos h8]
    exact ⟨trivial, trivial, trivial⟩
  · intro h0
    simp only [getLinePosSpring, if_pos h0]
    exact ⟨trivial, trivial, trivial⟩

/-- Witness for `getLinePosSpring_profile` at distances 2, 9 and 0. -/
theorem getLinePosSpring_profile_witness :
    ((getLinePosSpring 2).stiffness = max 40 (300 * (1/2 : ℝ) ^ (2 : ℤ).toNat) ∧
        (getLinePosSpring 2).damping =
          2 * Real.sqrt (max 40 (300 * (1/2 : ℝ) ^ (2 : ℤ).toNat))) ∧
      (getLinePosSpring 9).stiffness = 40 ∧ (getLinePosSpring 9).damping = 20 ∧
      (getLinePosSpring 0).stiffness = 1200 ∧ (getLinePosSpring 0).damping = 60 :=
  ⟨⟨((getLinePosSpring_profile 2).1 (by decide) (by decide)).2.1,
      ((getLinePosSpring_profile 2).1 (by decide) (by decide)).2.2⟩,
    ((getLinePosSpring_profile 9).2.1 (by decide)).2.1,
    ((getLinePosSpring_profile 9).2.1 (by decide)).2.2,
    ((getLinePosSpring_profile 0).2.2 (by decide)).2.1,
    ((getLinePosSpring_profile 0).2.2 (by decide)).2.2⟩

/-- A token handed to `addWord`: the four arguments of each `addWord`
call in `measureLineText` (`LyricLine.ts` lines 881-902); every
segmentation branch (verbatim words, `Intl.Segmenter`, per-character
CJK, space-separated) produces such a list. -/
structure WordToken where
  text : String
  startTime : ℚ
  endTime : ℚ
  isVerbatim : Bool
deriving DecidableEq, Repr

/-- The scalar parameters of `measureLineText`
(`LyricLine.ts` lines 825-835); `maxWidth = containerWidth - paddingX * 2`
is computed by the caller `measure` (line 656). -/
structure MeasureArgs where
  maxWidth : ℚ
  baseSize : ℚ
  mainHeight : ℚ
  paddingY : ℚ
  wrapLineGap : ℚ
deriving DecidableEq, Repr

/-- The mutable locals of `measureLineText` (`LyricLine.ts`
lines 838-841). -/
structure LayoutState where
  words : List WordLayout
  currentLineX : ℚ
  currentLineY : ℚ
  maxLineWidth : ℚ
deriving DecidableEq, Repr

/-- `computeCharMetrics` (`LyricLine.ts` lines 955-970): per character,
`measureText(char).width || char.length * (baseSize * 0.5)` (JavaScript
`||` replaces a zero width), accumulating widths and offsets.  `measure`
is the text-measurement oracle (`ctx.measureText(·).width`). -/
def computeCharMetrics (measure : String → ℚ) (text : String) (baseSize : ℚ) :
    List ℚ × List ℚ :=
  let step := fun (acc : List ℚ × List ℚ × ℚ) (c : Char) =>
    let m := measure (String.singleton c)
    let width := if m = 0
      then ((String.singleton c).length : ℚ) * (baseSize * (1/2))
      else m
    (acc.1 ++ [width], acc.2.1 ++ [acc.2.2], acc.2.2 + width)
  let r := text.toList.foldl step ([], [], 0)
  (r.1, r.2.1)

/-- `addWord` (`LyricLine.ts` lines 843-879): measure the token, fall
back to `text.length * (baseSize * 0.5)` when the measured width is 0
and the trimmed text is nonempty, wrap to a new row when appending would
exceed `maxWidth` (only if the current row is nonempty), push the word
and advance the cursor. -/
def addWord (measure : String → ℚ) (args : MeasureArgs) (st : LayoutState)
    (tok : WordToken) : LayoutState :=
  let metricsWidth := measure tok.text
  let width := if metricsWidth = 0 ∧ 0 < tok.text.trim.length
    then (tok.text.length : ℚ) * (args.baseSize * (1/2))
    else metricsWidth
  let wrapped := args.maxWidth < st.currentLineX + width ∧ 0 < st.currentLineX
  let x := if wrapped then 0 else st.currentLineX
  let y := if wrapped then st.currentLineY + args.mainHeight + args.wrapLineGap
    else st.currentLineY
  let cm := computeCharMetrics measure tok.text args.baseSize
  { words := st.words ++
      [{ text := tok.text, x := x, y := y, width := width,
         startTime := tok.startTime, endTime := tok.endTime,
         isVerbatim := tok.isVerbatim, charWidths := cm.1, charOffsets := cm.2 }],
    currentLineX := x + width,
    currentLineY := y,
    maxLineWidth := max st.maxLineWidth (x + width) }

/-- Result record of `measureLineText` (`LyricLine.ts` lines 904-908). -/
structure LineTextMeasurement where
  words : List WordLayout
  textWidth : ℚ
  height : ℚ
deriving DecidableEq, Repr

/-- `measureLineText` (`LyricLine.ts` lines 825-909) for a produced
token list: fold `addWord` from the initial cursor
(`currentLineX = 0`, `currentLineY = paddingY`, `maxLineWidth = 0`). -/
def measureLineText (measure : String → ℚ) (args : MeasureArgs)
    (tokens : List WordToken) : LineTextMeasurement :=
  let st := tokens.foldl (addWord measure args)
    { words := [], currentLineX := 0, currentLineY := args.paddingY, maxLineWidth := 0 }
  { words := st.words, textWidth := st.maxLineWidth,
    height := st.currentLineY + args.mainHeight }

theorem place_x_bound (maxW clx W : ℚ) (hWle : W ≤ maxW) :
    (if maxW < clx + W ∧ 0 < clx then (0 : ℚ) else clx) + W ≤ maxW := by
  split_ifs with h
  · linarith
  · rcases not_and_or.mp h with h1 | h2
    · linarith [not_lt.mp h1]
    · linarith [not_lt.mp h2]

theorem place_y_ge (cly mh gap : ℚ) (hmh : 0 ≤ mh) (hgap : 0 ≤ gap)
    (cond : Prop) [Decidable cond] :
    cly ≤ (if cond then cly + mh + gap else cly) := by
  split_ifs
  · linarith
  · exact le_refl cly

theorem layout_fold_invariant (measure : String → ℚ) (args : MeasureArgs)
    (hmh : 0 ≤ args.mainHeight) (hgap : 0 ≤ args.wrapLineGap) :
    ∀ (tokens : List WordToken) (st : LayoutState),
      (∀ w ∈ st.words, w.width ≤ args.maxWidth → w.x + w.width ≤ args.maxWidth) →
      (∀ w ∈ st.words, w.y ≤ st.currentLineY) →
      st.words.Pairwise (fun a b => a.y ≤ b.y) →
      ((∀ w ∈ (tokens.foldl (addWord measure args) st).words,
          w.width ≤ args.maxWidth → w.x + w.width ≤ args.maxWidth) ∧
        (∀ w ∈ (tokens.foldl (addWord measure args) st).words,
          w.y ≤ (tokens.foldl (addWord measure args) st).currentLineY) ∧
        (tokens.foldl (addWord measure args) st).words.Pairwise (fun a b => a.y ≤ b.y))
  | [], st, hbound, hy, hpair => ⟨hbound, hy, hpair⟩
  | tok :: rest, st, hbound, hy, hpair => by
      rw [List.foldl_cons]
      generalize hW : (if measure tok.text = 0 ∧ 0 < tok.text.trim.length
        then (tok.text.length : ℚ) * (args.baseSize * (1/2))
        else measure tok.text) = W at *
      have hst' : addWord measure args st tok =
          { words := st.words ++
              [{ text := tok.text,
                 x := if args.maxWidth < st.currentLineX + W ∧ 0 < st.currentLineX
                   then 0 else st.currentLineX,
                 y := if args.maxWidth < st.currentLineX + W ∧ 0 < st.currentLineX
                   then st.currentLineY + args.mainHeight + args.wrapLineGap
                   else st.currentLineY,
                 width := W, startTime := tok.startTime, endTime := tok.endTime,
                 isVerbatim := tok.isVerbatim,
                 charWidths := (computeCharMetrics measure tok.text args.baseSize).1,
                 charOffsets := (computeCharMetrics measure tok.text args.baseSize).2 }],
            currentLineX := (if args.maxWidth < st.currentLineX + W ∧ 0 < st.currentLineX
              then 0 else st.currentLineX) + W,
            currentLineY := if args.maxWidth < st.currentLineX + W ∧ 0 < st.currentLineX
              then st.currentLineY + args.mainHeight + args.wrapLineGap
              else st.currentLineY,
            maxLineWidth := max st.maxLineWidth
              ((if args.maxWidth < st.currentLineX + W ∧ 0 < st.currentLineX
                then 0 else st.currentLineX) + W) } := by
        rw [addWord, hW]
      rw [hst']
      apply layout_fold_invariant measure args hmh hgap rest
      · intro w hw hwle
        simp only [List.mem_append, List.mem_singleton] at hw
        rcases hw with hw | rfl
        · exact hbound w hw hwle
        · exact place_x_bound args.maxWidth st.currentLineX W hwle
      · intro w hw
        simp only [List.mem_append, List.mem_singleton] at hw
        rcases hw with hw | rfl
        · exact le_trans (hy w hw)
            (place_y_ge st.currentLineY args.mainHeight args.wrapLineGap hmh hgap _)
        · exact le_refl _
      · refine List.pairwise_append.mpr ⟨hpair, List.pairwise_singleton _ _, ?_⟩
        intro a ha b hb
        rw [List.mem_singleton] at hb
        subst hb
        exact le_trans (hy a ha)
          (place_y_ge st.currentLineY args.mainHeight args.wrapLineGap hmh hgap _)

/-- C7 (amended): with `maxWidth = containerWidth − 2·paddingX`
(`measure`, `LyricLine.ts` line 656), nonnegative padding, row height
and wrap gap, every produced word *whose own width fits the row budget*
satisfies `word.x + word.width ≤ containerWidth − paddingX`, and the
`word.y` values are non-decreasing in source order.  (A word wider than
the whole budget — whether from the zero-width-glyph fallback or from an
honestly measured wide word — is placed at `x = 0` and overflows; see
the counterexample.) -/
theorem measureLineText_wrap_invariant (measure : String → ℚ)
    (args : MeasureArgs) (tokens : List WordToken)
    (containerWidth paddingX : ℚ) (hpad : 0 ≤ paddingX)
    (hmw : args.maxWidth = containerWidth - paddingX * 2)
    (hmh : 0 ≤ args.mainHeight) (hgap : 0 ≤ args.wrapLineGap) :
    (∀ w ∈ (measureLineText measure args tokens).words,
        w.width ≤ args.maxWidth → w.x + w.width ≤ containerWidth - paddingX) ∧
      (measureLineText measure args tokens).words.Pairwise (fun a b => a.y ≤ b.y) := by
  have hinv := layout_fold_invariant measure args hmh hgap tokens
    { words := [], currentLineX := 0, currentLineY := args.paddingY, maxLineWidth := 0 }
    (by intro w hw; simp at hw) (by intro w hw; simp at hw) (by simp)
  have hwords : (measureLineText measure args tokens).words =
      (tokens.foldl (addWord measure args)
        { words := [], currentLineX := 0, currentLineY := args.paddingY,
          maxLineWidth := 0 }).words := rfl
  constructor
  · intro w hw hwle
    rw [hwords] at hw
    have := hinv.1 w hw hwle
    rw [hmw] at this
    linarith
  · rw [hwords]
    exact hinv.2.2

/-- Witness for `measureLineText_wrap_invariant`: two words of width 100
in a 288-wide budget (container 400, padding 56) both fit and keep
non-decreasing `y`. -/
theorem measureLineText_wrap_invariant_witness :
    (∀ w ∈ (measureLineText (fun _ => 100) ⟨288, 40, 46, 18, 0⟩
        [⟨"ab", 0, 1, true⟩, ⟨"cd", 1, 2, true⟩]).words,
      w.width ≤ (288 : ℚ) → w.x + w.width ≤ 400 - 56) ∧
      (measureLineText (fun _ => 100) ⟨288, 40, 46, 18, 0⟩
        [⟨"ab", 0, 1, true⟩, ⟨"cd", 1, 2, true⟩]).words.Pairwise
        (fun a b => a.y ≤ b.y) :=
  measureLineText_wrap_invariant (fun _ => 100) ⟨288, 40, 46, 18, 0⟩
    [⟨"ab", 0, 1, true⟩, ⟨"cd", 1, 2, true⟩] 400 56
    (by with_unfolding_all decide) (by with_unfolding_all decide)
    (by with_unfolding_all decide) (by with_unfolding_all decide)

/-- C7 counterexample: a word honestly measured at width 345 (no
zero-width-glyph fallback: its measured width is nonzero) in a container
of width 400 with desktop padding 56 is placed at `x = 0` and violates
`word.x + word.width ≤ containerWidth − paddingX` — so the wrap
invariant's "sole exception" is not only the zero-width fallback. -/
theorem measureLineText_overflow_counterexample :
    ((measureLineText (fun _ => 345) ⟨288, 40, 46, 18, 0⟩
        [⟨"w", 0, 1, true⟩]).words.map (fun w => (w.x, w.width))) = [(0, 345)] ∧
      (345 : ℚ) ≠ 0 ∧ ¬ ((0 : ℚ) + 345 ≤ 400 - 56) := by
  with_unfolding_all decide

/-- C9 (amended): when the measurement oracle returns width `0` for a
token whose *trimmed* text is nonempty, `addWord` substitutes the
estimated width `text.length · (baseSize · 0.5)`, which is positive
whenever `baseSize > 0` and the text is nonempty.  (A whitespace-only
word keeps width 0: the guard tests `text.trim().length > 0`, not
non-emptiness; see the counterexample.) -/
theorem addWord_zeroWidth_fallback (measure : String → ℚ) (args : MeasureArgs)
    (st : LayoutState) (tok : WordToken)
    (h0 : measure tok.text = 0) (hblank : 0 < tok.text.trim.length) :
    (addWord measure args st tok).words.getLast?.map WordLayout.width =
        some ((tok.text.length : ℚ) * (args.baseSize * (1/2))) ∧
      (0 < args.baseSize → 0 < tok.text.length →
        0 < (tok.text.length : ℚ) * (args.baseSize * (1/2))) := by
  constructor
  · rw [addWord]
    simp only [if_pos (And.intro h0 hblank)]
    rw [List.getLast?_concat]
    rfl
  · intro hb hl
    have h1 : (0 : ℚ) < (tok.text.length : ℚ) := by exact_mod_cast hl
    positivity

/-- Witness for `addWord_zeroWidth_fallback`: the word "ab" measured at
width 0 with `baseSize = 40` receives the estimated width
`2 · (40 · 0.5) = 40 > 0`. -/
theorem addWord_zeroWidth_fallback_witness :
    (addWord (fun _ => 0) ⟨288, 40, 46, 18, 0⟩
        ⟨[], 0, 18, 0⟩ ⟨"ab", 0, 1, true⟩).words.getLast?.map WordLayout.width =
        some ((("ab" : String).length : ℚ) * ((40 : ℚ) * (1/2))) ∧
      (0 < (("ab" : String).length : ℚ) * ((40 : ℚ) * (1/2))) :=
  ⟨(addWord_zeroWidth_fallback (fun _ => 0) ⟨288, 40, 46, 18, 0⟩
      ⟨[], 0, 18, 0⟩ ⟨"ab", 0, 1, true⟩ rfl (by with_unfolding_all decide)).1,
    (addWord_zeroWidth_fallback (fun _ => 0) ⟨288, 40, 46, 18, 0⟩
      ⟨[], 0, 18, 0⟩ ⟨"ab", 0, 1, true⟩ rfl (by with_unfolding_all decide)).2
      (by with_unfolding_all decide) (by with_unfolding_all decide)⟩

/-- C9 counterexample: a whitespace-only word (" ", which is non-empty)
measured at width 0 keeps width 0 — the fallback guard requires
`text.trim().length > 0`, so not every non-empty word receives a
positive width. -/
theorem addWord_whitespace_counterexample :
    ((measureLineText (fun _ => 0) ⟨288, 40, 46, 18, 0⟩
        [⟨" ", 0, 1, false⟩]).words.map WordLayout.width) = [0] ∧
      (" " : String) ≠ "" := by
  with_unfolding_all decide

/-- `RESUME_DELAY_MS` (`src/unnamed/part_009` line 90). -/
def RESUME_DELAY_MS : ℚ := 3000

/-- `FOCAL_POINT_RATIO` (`part_009` line 91). -/
def FOCAL_POINT_RATIO : ℚ := 35/100

/-- The `scrollState` ref of `useLyricsPhysics` (`part_009` lines 81-88). -/
structure ScrollState where
  isDragging : Bool
  lastInteractionTime : ℚ
  touchStartY : ℚ
  touchLastY : ℚ
  touchVelocity : ℚ
  targetScrollY : ℚ
deriving DecidableEq, Repr

/-- The `SpringSystem` holding the single `scrollY` channel
(`part_009` line 78): the channel state plus the config installed by the
last `setTarget` (absent initially; `update` falls back to
`DEFAULT_SPRING`, `lyricsService.ts` line 592). -/
structure CameraSystem where
  scrollY : SpringState
  scrollYConfig : Option SpringConfig
deriving DecidableEq, Repr

/-- `SpringSystem.getCurrent` (`lyricsService.ts` lines 584-586) for the
`scrollY` channel (`current[key] || 0`; the channel always exists, and
`0 || 0 = 0`, so this is the stored value). -/
def CameraSystem.getCurrent (sys : CameraSystem) : ℚ :=
  sys.scrollY.current

/-- `SpringSystem.setValue` (`lyricsService.ts` lines 573-577). -/
def CameraSystem.setValue (sys : CameraSystem) (v : ℚ) : CameraSystem :=
  { sys with scrollY := { current := v, velocity := 0, target := v } }

/-- `SpringSystem.setTarget` (`lyricsService.ts` lines 565-570). -/
def CameraSystem.setTarget (sys : CameraSystem) (v : ℚ) (c : SpringConfig) :
    CameraSystem :=
  { scrollY := { sys.scrollY with target := v }, scrollYConfig := some c }

/-- `SpringSystem.update` (`lyricsService.ts` lines 588-626) on the
single `scrollY` channel. -/
def CameraSystem.update (sys : CameraSystem) (dt : ℚ) : CameraSystem :=
  { sys with scrollY :=
      springSystemStep (sys.scrollYConfig.getD DEFAULT_SPRING) sys.scrollY dt }

/-- `arr[i] || 0` for a JavaScript array index (out-of-range gives
`undefined`, `|| 0` maps both `undefined` and `0` to `0`). -/
def jsIndexOr0 (l : List ℚ) (i : ℤ) : ℚ :=
  if i < 0 then 0 else l.getD i.toNat 0

/-- `computeActiveScrollTarget` (`part_009` lines 156-168): `0` when no
line is active, otherwise the active line's layout position plus half
its height.  (The local `focalPoint` is computed but unused in the
source; it is reproduced here for fidelity.) -/
def computeActiveScrollTarget (activeIndex : ℤ)
    (linePositions lineHeights : List ℚ) (containerHeight : ℚ) : ℚ :=
  if activeIndex = -1 then 0
  else
    let lineY := jsIndexOr0 linePositions activeIndex
    let lineHeight := jsIndexOr0 lineHeights activeIndex
    let _focalPoint := containerHeight * FOCAL_POINT_RATIO
    let elementCenterOffset := lineHeight / 2
    lineY + elementCenterOffset

/-- The global-scroll part of `updatePhysics` (`part_009` lines 146-197):
scrub-lock snaps to the active target; user-scroll (dragging, or within
`RESUME_DELAY_MS` of the last interaction) applies inertia and re-targets
the spring at its own current value; otherwise auto-follow targets the
active line; finally the spring system advances by `dt`. -/
def updatePhysicsCamera (now dt : ℚ) (isScrubbing : Bool) (activeIndex : ℤ)
    (linePositions lineHeights : List ℚ) (containerHeight : ℚ)
    (s : ScrollState) (sys : CameraSystem) : ScrollState × CameraSystem :=
  let timeSinceInteraction := now - s.lastInteractionTime
  let userScrollActive := s.isDragging ∨ timeSinceInteraction < RESUME_DELAY_MS
  if isScrubbing then
    let target := computeActiveScrollTarget activeIndex linePositions
      lineHeights containerHeight
    (s, (sys.setValue target).update dt)
  else if userScrollActive then
    let inertia := ¬ s.isDragging ∧ 10 < |s.touchVelocity|
    let s2 := if inertia then { s with touchVelocity := s.touchVelocity * (92/100) } else s
    let sys2 := if inertia
      then sys.setValue (sys.getCurrent + s.touchVelocity * dt) else sys
    (s2, ((sys2.setTarget sys2.getCurrent CAMERA_SPRING).update dt))
  else
    let target := computeActiveScrollTarget activeIndex linePositions
      lineHeights containerHeight
    (s, ((sys.setTarget target CAMERA_SPRING).update dt))

/-- `handlers.onTouchEnd` (`part_009` lines 283-286): clears the drag
flag and stamps `lastInteractionTime = now`. -/
def onTouchEnd (now : ℚ) (s : ScrollState) : ScrollState :=
  { s with isDragging := false, lastInteractionTime := now }

theorem springSystemStep_target (p : SpringConfig) (s : SpringState) (dt : ℚ) :
    (springSystemStep p s dt).target = s.target := by
  rw [springSystemStep_eq]
  split_ifs <;> rfl

theorem camera_setTarget_update_target (sys : CameraSystem) (v : ℚ)
    (c : SpringConfig) (dt : ℚ) :
    ((sys.setTarget v c).update dt).scrollY.target = v := by
  simp only [CameraSystem.update, CameraSystem.setTarget, springSystemStep_target]

/-- C4: after a drag ends at time `T` (`onTouchEnd` stamps
`lastInteractionTime = T` and clears `isDragging`), a physics update at
time `now` with no scrubbing (1) keeps the camera in user-scrolling mode
whenever `now − T < 3000` ms: the `scrollY` spring's target is set to the
spring's own current value (after the inertia displacement, when residual
touch velocity exceeds 10) rather than the active-line target; (2)
re-enters auto-follow exactly once `now − T ≥ 3000` ms: the target is
recomputed from the active line; and (3) the update itself never touches
`isDragging` or `lastInteractionTime`, so with no new input the same mode
rule applies to every subsequent update. -/
theorem cameraResume (T now dt : ℚ) (activeIndex : ℤ)
    (linePositions lineHeights : List ℚ) (containerHeight : ℚ)
    (s0 : ScrollState) (sys : CameraSystem) :
    (now - T < RESUME_DELAY_MS →
        ((updatePhysicsCamera now dt false activeIndex linePositions lineHeights
            containerHeight (onTouchEnd T s0) sys).2).scrollY.target =
          (if 10 < |s0.touchVelocity|
            then sys.getCurrent + s0.touchVelocity * dt
            else sys.getCurrent)) ∧
      (RESUME_DELAY_MS ≤ now - T →
        ((updatePhysicsCamera now dt false activeIndex linePositions lineHeights
            containerHeight (onTouchEnd T s0) sys).2).scrollY.target =
          computeActiveScrollTarget activeIndex linePositions lineHeights
            containerHeight) ∧
      ((updatePhysicsCamera now dt false activeIndex linePositions lineHeights
          containerHeight (onTouchEnd T s0) sys).1.isDragging = false ∧
        (updatePhysicsCamera now dt false activeIndex linePositions lineHeights
          containerHeight (onTouchEnd T s0) sys).1.lastInteractionTime = T) := by
  have hdrag : (onTouchEnd T s0).isDragging = false := rfl
  have hlast : (onTouchEnd T s0).lastInteractionTime = T := rfl
  have hvel : (onTouchEnd T s0).touchVelocity = s0.touchVelocity := rfl
  refine ⟨?_, ?_, ?_⟩
  · intro hlt
    simp only [updatePhysicsCamera, Bool.false_eq_true, if_false, hdrag, hvel,
      hlast, false_or, not_false_iff, true_and]
    rw [if_pos hlt]
    dsimp only
    rw [camera_setTarget_update_target]
    split_ifs with hi
    · simp [CameraSystem.setValue, CameraSystem.getCurrent]
    · rfl
  · intro hge
    simp only [updatePhysicsCamera, Bool.false_eq_true, if_false, hdrag, hvel,
      hlast, false_or, not_false_iff, true_and]
    rw [if_neg (not_lt.mpr hge)]
    dsimp only
    rw [camera_setTarget_update_target]
  · simp only [updatePhysicsCamera, Bool.false_eq_true, if_false, hdrag, hvel,
      hlast, false_or, not_false_iff, true_and]
    split_ifs <;> exact ⟨rfl, rfl⟩

/-- Witness for `cameraResume`: drag ends at `T = 1000`; an update at
`now = 2000` (within the 3000 ms delay, no residual velocity) re-targets
the spring at its own current value, an update at `now = 5000` targets
the active line, and neither touches the drag state. -/
theorem cameraResume_witness :
    ((updatePhysicsCamera 2000 (1/60) false 0 [100] [50] 600
        (onTouchEnd 1000 ⟨true, 0, 0, 0, 0, 0⟩) ⟨⟨42, 0, 42⟩, none⟩).2).scrollY.target =
        (if 10 < |(⟨true, 0, 0, 0, 0, 0⟩ : ScrollState).touchVelocity|
          then (⟨⟨42, 0, 42⟩, none⟩ : CameraSystem).getCurrent +
            (⟨true, 0, 0, 0, 0, 0⟩ : ScrollState).touchVelocity * (1/60)
          else (⟨⟨42, 0, 42⟩, none⟩ : CameraSystem).getCurrent) ∧
      ((updatePhysicsCamera 5000 (1/60) false 0 [100] [50] 600
        (onTouchEnd 1000 ⟨true, 0, 0, 0, 0, 0⟩) ⟨⟨42, 0, 42⟩, none⟩).2).scrollY.target =
        computeActiveScrollTarget 0 [100] [50] 600 ∧
      (updatePhysicsCamera 5000 (1/60) false 0 [100] [50] 600
        (onTouchEnd 1000 ⟨true, 0, 0, 0, 0, 0⟩) ⟨⟨42, 0, 42⟩, none⟩).1.isDragging = false :=
  ⟨(cameraResume 1000 2000 (1/60) 0 [100] [50] 600 ⟨true, 0, 0, 0, 0, 0⟩
      ⟨⟨42, 0, 42⟩, none⟩).1 (by with_unfolding_all decide),
    (cameraResume 1000 5000 (1/60) 0 [100] [50] 600 ⟨true, 0, 0, 0, 0, 0⟩
      ⟨⟨42, 0, 42⟩, none⟩).2.1 (by with_unfolding_all decide),
    (cameraResume 1000 5000 (1/60) 0 [100] [50] 600 ⟨true, 0, 0, 0, 0, 0⟩
      ⟨⟨42, 0, 42⟩, none⟩).2.2.1⟩

/-- The property names defined on the `handlers` object returned by
`useLyricsPhysics` (`src/unnamed/part_009` lines 262-293): exactly
`onTouchStart`, `onTouchMove`, `onTouchEnd` and `onWheel`. -/
def physicsHandlerNames : List String :=
  ["onTouchStart", "onTouchMove", "onTouchEnd", "onWheel"]

/-- JavaScript member call `handlers[name]()`: invoking a property the
object does not define throws a `TypeError` (`undefined is not a
function`). -/
def callHandler (names : List String) (name : String) : Except String Unit :=
  if name ∈ names then Except.ok ()
  else Except.error ("TypeError: handlers." ++ name ++ " is not a function")

/-- Jump-detection condition of `LyricsView.render` (`part_003`
line 149): `!Number.isFinite(visualTime) || Math.abs(targetTime -
visualTime) > 1`; a non-finite visual time is modelled as `none`. -/
def jumpDetected (visualTime : Option ℚ) (targetTime : ℚ) : Bool :=
  match visualTime with
  | none => true
  | some v => 1 < |targetTime - v|

/-- The jump-handling tail of `LyricsView.render` (`part_003`
lines 148-154): on a detected jump the local `visualTime` is snapped to
`targetTime` and `handlers.onClick()` is called *before* the commit
`visualTimeRef.current = visualTime` (line 154); the commit is reached
only if the call does not throw.  The result is the committed
`visualTimeRef` value, or the thrown error. -/
def renderJumpStep (visualTime : Option ℚ) (targetTime : ℚ) : Except String ℚ :=
  if jumpDetected visualTime targetTime then
    match callHandler physicsHandlerNames "onClick" with
    | Except.ok _ => Except.ok targetTime
    | Except.error e => Except.error e
  else
    Except.ok (visualTime.getD targetTime)

/-- C5 evaluated on the code: `useLyricsPhysics` defines no `onClick`
handler, so on every frame whose `visualTime` is non-finite (`none`) or
more than 1 s from the playback time, `handlers.onClick()` throws a
`TypeError` — the frame raises instead of completing, and the snapped
`visualTime` is never committed to `visualTimeRef`.  Shown here at the
failing inputs `visualTime = 0, targetTime = 10` and a non-finite
`visualTime`. -/
theorem renderJump_onClick_missing :
    ("onClick" ∉ physicsHandlerNames) ∧
      jumpDetected (some 0) 10 = true ∧
      renderJumpStep (some 0) 10 =
        Except.error "TypeError: handlers.onClick is not a function" ∧
      jumpDetected none 0 = true ∧
      renderJumpStep none 0 =
        Except.error "TypeError: handlers.onClick is not a function" :=
  ⟨by decide, by with_unfolding_all decide, by with_unfolding_all rfl,
    by decide, by with_unfolding_all rfl⟩
